import Mathlib

/-!
Shallow embedding of the conversation-memory core of the `xi9d/rustai`
repository (a desktop chat client): the durable conversation log
(`RagSystem` in `src/rag.rs` / `src/main.rs`), the keyword-overlap
retrieval (`find_similar_responses`), the context assembly
(`create_rag_context`), the analytics aggregation (`AnalyticsEngine` in
`src/analytics.rs`), the mirror-file export (`save_as_text_file`), the
pending-result bus (`PendingOperation` plus `check_async_updates`), the
chat-send background task (`send_message` in `src/ui.rs`, `ask_ollama` in
`src/main.rs`) and the input debouncer (`debounced_rag_update`).

Conventions of the embedding:
* The SQLite `conversations` table is a `List ConversationEntry` in rowid
  (insertion) order.
* `chrono::DateTime<Local>` is a `Timestamp` record of calendar fields
  plus a nanosecond component; `ORDER BY timestamp DESC` over the stored
  RFC3339 text is modelled as sorting by the numeric key `fullKey`
  (the stored text ordering agrees with chronological order for a fixed
  UTC offset).
* `f64` analytics arithmetic (SQLite `AVG`) is carried out exactly in ℚ.
* SQL execution of the string-interpolated `SELECT` built by
  `find_similar_responses` is modelled by cases on the interpolated
  keywords: an empty keyword list yields an empty `WHERE` clause (a
  SQLite syntax error), a keyword containing a single quote breaks the
  `'%...%'` literal (a SQLite syntax error, as for the word `it's`), and
  otherwise the rows are filtered by SQLite `LIKE` semantics:
  ASCII-case-insensitive, with `%` and `_` from the keyword acting as
  wildcards.
-/

namespace Rustai

/-- Calendar timestamp standing for `chrono::DateTime<Local>`.  The
`nano` field models the sub-second component, which the mirror-file
name format `%Y%m%d_%H%M%S` discards. -/
structure Timestamp where
  year : Nat
  month : Nat
  day : Nat
  hour : Nat
  minute : Nat
  second : Nat
  nano : Nat
deriving DecidableEq

/-- Numeric key of the timestamp truncated to whole seconds, in the
digit order `%Y%m%d_%H%M%S` uses: year, month, day, hour, minute,
second. -/
def secKey (t : Timestamp) : Nat :=
  ((((t.year * 100 + t.month) * 100 + t.day) * 100 + t.hour) * 100 + t.minute) * 100
    + t.second

/-- Full chronological key of a timestamp, including nanoseconds. -/
def fullKey (t : Timestamp) : Nat :=
  secKey t * 1000000000 + t.nano

/-- Numeric value of the `%Y%m%d` digit group of the mirror file name. -/
def dateKey (t : Timestamp) : Nat :=
  (t.year * 100 + t.month) * 100 + t.day

/-- Numeric value of the `%H%M%S` digit group of the mirror file name. -/
def timeKey (t : Timestamp) : Nat :=
  (t.hour * 100 + t.minute) * 100 + t.second

/-- One row of the `conversations` table (struct `ConversationEntry` in
`src/models.rs` / `src/main.rs`). -/
structure ConversationEntry where
  id : Int
  timestamp : Timestamp
  prompt : String
  response : String
  model_used : String
  response_time_ms : Int
  file_context : Option String
deriving DecidableEq

/-- The durable log append performed by the `INSERT` of
`RagSystem::save_conversation`: a new row at the end of the table. -/
def saveConversationRow (log : List ConversationEntry) (e : ConversationEntry) :
    List ConversationEntry :=
  log ++ [e]

/-- The Unicode `White_Space` property, the whitespace class Rust
`char::is_whitespace` (and hence `str::split_whitespace`) uses:
U+0009-U+000D, U+0020, U+0085, U+00A0, U+1680, U+2000-U+200A, U+2028,
U+2029, U+202F, U+205F and U+3000. -/
def isUnicodeWhitespace (c : Char) : Bool :=
  decide (9 ≤ c.toNat ∧ c.toNat ≤ 13) || decide (c.toNat = 32) ||
    decide (c.toNat = 133) || decide (c.toNat = 160) || decide (c.toNat = 5760) ||
    decide (8192 ≤ c.toNat ∧ c.toNat ≤ 8202) || decide (c.toNat = 8232) ||
    decide (c.toNat = 8233) || decide (c.toNat = 8239) || decide (c.toNat = 8287) ||
    decide (c.toNat = 12288)

/-- Splitter matching Rust `str::split_whitespace`: maximal runs of
characters without the Unicode `White_Space` property, no empty tokens.
`acc` holds the current in-progress word reversed. -/
def splitWordsAux : List Char → List Char → List String
  | [], acc => if acc.isEmpty then [] else [String.mk acc.reverse]
  | c :: cs, acc =>
    if isUnicodeWhitespace c then
      (if acc.isEmpty then [] else [String.mk acc.reverse]) ++ splitWordsAux cs []
    else
      splitWordsAux cs (c :: acc)

/-- Whitespace-separated words of a string, as
`prompt.split_whitespace()` produces them. -/
def splitWords (s : String) : List String :=
  splitWordsAux s.data []

/-- The single-quote character, written via its code point. -/
def quoteChar : Char := Char.ofNat 39

/-- The `%` wildcard of SQL `LIKE`. -/
def percentChar : Char := '%'

/-- The `_` wildcard of SQL `LIKE`. -/
def underscoreChar : Char := Char.ofNat 95

/-- ASCII lower-casing, the case folding SQLite applies to `LIKE`
operands (`A`-`Z` only). -/
def asciiLower (c : Char) : Char :=
  if 65 ≤ c.toNat ∧ c.toNat ≤ 90 then Char.ofNat (c.toNat + 32) else c

/-- Single-character step of SQLite `LIKE`: `_` matches any character,
anything else matches up to ASCII case. -/
def charLikeEq (p c : Char) : Bool :=
  p == underscoreChar || asciiLower p == asciiLower c

/-- SQLite `LIKE` pattern matching over character lists (default
`ESCAPE`-less, ASCII-case-insensitive semantics): `%` matches any
span, `_` any single character. -/
def likeMatch : List Char → List Char → Bool
  | [], t => t.isEmpty
  | p :: ps, t =>
    if p == percentChar then
      t.tails.any (fun suf => likeMatch ps suf)
    else
      match t with
      | [] => false
      | c :: cs => charLikeEq p c && likeMatch ps cs

/-- The condition `col LIKE '%w%'` of the generated query applied to a
column value `s`. -/
def likeContains (w : String) (s : String) : Bool :=
  likeMatch (percentChar :: (w.data ++ [percentChar])) s.data

/-- The generated `WHERE` clause of `find_similar_responses` applied to
one row: some keyword `LIKE`-matches the prompt or the response. -/
def matchesKeywords (kws : List String) (e : ConversationEntry) : Bool :=
  kws.any (fun w => likeContains w e.prompt || likeContains w e.response)

/-- Insertion step of the `ORDER BY timestamp DESC` sort. -/
def insertByTsDesc (e : ConversationEntry) : List ConversationEntry → List ConversationEntry
  | [] => [e]
  | x :: xs =>
    if fullKey x.timestamp < fullKey e.timestamp then e :: x :: xs
    else x :: insertByTsDesc e xs

/-- The `ORDER BY timestamp DESC` sort: newest first (stable on rowid
order for equal timestamps; SQLite leaves ties unspecified). -/
def sortByTsDesc : List ConversationEntry → List ConversationEntry
  | [] => []
  | x :: xs => insertByTsDesc x (sortByTsDesc xs)

/-- Embedding of `RagSystem::find_similar_responses` (`src/rag.rs`
lines 105-157, identical in `src/main.rs`): takes the first three
whitespace-separated words of the query, interpolates them verbatim
into `(prompt LIKE '%w%' OR response LIKE '%w%')` conditions joined by
`OR`, and runs
`SELECT ... WHERE <conditions> ORDER BY timestamp DESC LIMIT <limit>`.
With no keywords the `WHERE` clause is empty and SQLite rejects the
statement; a keyword containing a single quote splits the `'%w%'`
string literal and SQLite rejects the statement (so for such queries no
result row set is produced). -/
def findSimilarResponses (log : List ConversationEntry) (prompt : String) (limit : Nat) :
    Except String (List ConversationEntry) :=
  let keywords := (splitWords prompt).take 3
  if keywords.isEmpty then
    Except.error "SQL syntax error: empty WHERE clause"
  else if keywords.any (fun w => w.data.contains quoteChar) then
    Except.error "SQL syntax error: unterminated string literal"
  else
    Except.ok ((sortByTsDesc (log.filter (matchesKeywords keywords))).take limit)

/-- The rendering `format!("Previous context:\nQ: {}\nA: {}\n", ...)`
of one retrieved entry inside `create_rag_context`. -/
def renderPrevious (e : ConversationEntry) : String :=
  "Previous context:\nQ: " ++ e.prompt ++ "\nA: " ++ e.response ++ "\n"

/-- Rust `Vec::join(sep)`. -/
def joinSep (sep : String) : List String → String
  | [] => ""
  | [x] => x
  | x :: y :: xs => x ++ sep ++ joinSep sep (y :: xs)

/-- Embedding of `RagSystem::create_rag_context` (`src/rag.rs` lines
159-172): identity on the prompt when no suggestions are given,
otherwise the first two suggestions rendered and joined with `"\n"`,
followed by `"\n\nCurrent question: "` and the prompt. -/
def createRagContext (suggestions : List ConversationEntry) (currentPrompt : String) : String :=
  if suggestions.isEmpty then currentPrompt
  else
    joinSep "\n" ((suggestions.take 2).map renderPrevious)
      ++ "\n\nCurrent question: " ++ currentPrompt

/-- The `Analytics` struct of `src/models.rs` (`avg_response_time` is
`f64` in the source; the embedding computes it exactly in ℚ). -/
structure Analytics where
  total_requests : Nat
  avg_response_time : ℚ
  most_used_model : String
  total_tokens_approx : Nat
  sessions_today : Nat
  cache_hits : Nat
  cache_misses : Nat
deriving DecidableEq

/-- Calendar day of an entry, the value `DATE(timestamp)` groups by. -/
def entryDate (e : ConversationEntry) : Nat × Nat × Nat :=
  (e.timestamp.year, e.timestamp.month, e.timestamp.day)

/-- `SELECT COUNT(*) FROM conversations`
(`AnalyticsEngine::get_total_requests`). -/
def getTotalRequests (log : List ConversationEntry) : Nat :=
  log.length

/-- `SELECT AVG(response_time_ms) FROM conversations` with the `NULL`
result of an empty table mapped to `0.0` by `avg.unwrap_or(0.0)`
(`AnalyticsEngine::get_avg_response_time`, `src/analytics.rs` lines
51-58). -/
def getAvgResponseTime (log : List ConversationEntry) : ℚ :=
  if log.isEmpty then 0
  else ((log.map fun e => (e.response_time_ms : ℚ)).sum) / (log.length : ℚ)

/-- Occurrence count of one model name in the log. -/
def modelCount (log : List ConversationEntry) (m : String) : Nat :=
  log.countP (fun e => e.model_used == m)

/-- `SELECT model_used, COUNT(*) ... GROUP BY model_used ORDER BY count
DESC LIMIT 1` with `unwrap_or_default` mapping the empty table to `""`
(`AnalyticsEngine::get_most_used_model`).  SQLite leaves the choice
among tied maximal counts unspecified; the embedding keeps the first
maximal model in first-appearance order. -/
def getMostUsedModel (log : List ConversationEntry) : String :=
  match (log.map fun e => e.model_used).dedup with
  | [] => ""
  | m :: ms =>
    ms.foldl (fun best cand =>
      if modelCount log best < modelCount log cand then cand else best) m

/-- `SELECT COUNT(DISTINCT DATE(timestamp)) FROM conversations WHERE
DATE(timestamp) = today` (`AnalyticsEngine::get_sessions_today`,
`src/analytics.rs` lines 71-78): the number of distinct calendar days
among the rows whose day equals `today`. -/
def getSessionsToday (log : List ConversationEntry) (today : Nat × Nat × Nat) : Nat :=
  (((log.filter fun e => entryDate e == today).map entryDate).dedup).length

/-- `SELECT SUM(LENGTH(prompt) + LENGTH(response)) FROM conversations`
divided by 4, with the `NULL` sum of an empty table mapped to 0
(`AnalyticsEngine::get_token_count`). -/
def getTokenCount (log : List ConversationEntry) : Nat :=
  ((log.map fun e => e.prompt.length + e.response.length).sum) / 4

/-- Embedding of `AnalyticsEngine::get_analytics` / the inline
`RagSystem::get_analytics` of `src/main.rs`: the five statistics
computed over the current table, with the never-written cache counters
left at their `Default` value 0.  `today` is the
`Local::now().format("%Y-%m-%d")` day the refresh runs on. -/
def getAnalytics (log : List ConversationEntry) (today : Nat × Nat × Nat) : Analytics :=
  { total_requests := getTotalRequests log
    avg_response_time := getAvgResponseTime log
    most_used_model := getMostUsedModel log
    total_tokens_approx := getTokenCount log
    sessions_today := getSessionsToday log today
    cache_hits := 0
    cache_misses := 0 }

/-- The `PendingOperation` enum of `src/models.rs` / `src/main.rs`. -/
inductive PendingOperation where
  | Response (result : String)
  | Analytics (a : Analytics)
  | RagSuggestions (suggestions : List ConversationEntry)
  | LoadingComplete
  | Error (message : String)
deriving DecidableEq

/-- Whether a pending result is the `Error` variant. -/
def isErrorOp : PendingOperation → Bool
  | PendingOperation.Error _ => true
  | _ => false

/-- A producer appending one result to the shared
`pending_operations` vector (`ops.push(...)`). -/
def postOp (bus : List PendingOperation) (op : PendingOperation) : List PendingOperation :=
  bus ++ [op]

/-- The consumer drain `ops.drain(..)` of `check_async_updates`: all
queued items are removed and returned in queue order, leaving the
queue empty. -/
def drainOps (bus : List PendingOperation) :
    List PendingOperation × List PendingOperation :=
  (bus, [])

/-- Items the `send_message` background task of `src/ui.rs` (lines
133-169) pushes onto the bus for one chat request, as a function of
the `generate_response` outcome. -/
def sendMessagePosts (result : Except String String) : List PendingOperation :=
  match result with
  | Except.ok response =>
    [PendingOperation.Response response, PendingOperation.LoadingComplete]
  | Except.error e =>
    [PendingOperation.Error e, PendingOperation.LoadingComplete]

/-- The `result` string the `ask_ollama` task of `src/main.rs` (lines
368-414) computes: the model response on success, or a
`format!`-rendered error message when the HTTP send or the JSON decode
fails.  The outer `Except` is the transport send, the inner one the
body decode. -/
def askOllamaResultText (outcome : Except String (Except String String)) : String :=
  match outcome with
  | Except.ok (Except.ok resp) => resp
  | Except.ok (Except.error e) => "Error parsing response: " ++ e
  | Except.error e => "Error making request: " ++ e

/-- Items the `ask_ollama` task of `src/main.rs` pushes onto the bus
for one chat request: it always pushes `Response(result)` followed by
`LoadingComplete`, also when `result` is an error rendering. -/
def askOllamaPosts (outcome : Except String (Except String String)) : List PendingOperation :=
  [PendingOperation.Response (askOllamaResultText outcome), PendingOperation.LoadingComplete]

/-- The two `static mut` cells of `debounced_rag_update`
(`src/ui.rs` lines 285-299): last observed input and a `u32`
counter. -/
structure DebounceState where
  lastInput : Option String
  counter : Nat
deriving DecidableEq

/-- Initial debouncer state: both statics start at `None` / `0`. -/
def initDebounceState : DebounceState :=
  { lastInput := none, counter := 0 }

/-- Modulus of the `u32` counter. -/
def u32Mod : Nat := 4294967296

/-- One frame of `TouristApp::debounced_rag_update`: when the observed
input differs from the last observed value the counter increments (as
a `u32`) and `update_rag_suggestions` is invoked exactly when the new
counter is a multiple of five.  Returns the new state and whether the
refresh routine was invoked. -/
def debouncedRagUpdate (st : DebounceState) (input : String) : DebounceState × Bool :=
  if st.lastInput == some input then
    (st, false)
  else
    let c := (st.counter + 1) % u32Mod
    ({ lastInput := some input, counter := c }, c % 5 == 0)

/-- Folding the debouncer over a sequence of observed input values,
counting how many refreshes were triggered. -/
def debounceRun (st : DebounceState) (inputs : List String) : DebounceState × Nat :=
  inputs.foldl
    (fun acc input =>
      let step := debouncedRagUpdate acc.1 input
      (step.1, acc.2 + (if step.2 then 1 else 0)))
    (st, 0)

/-- Last decimal digit of `n` as a character. -/
def digitChar (n : Nat) : Char :=
  Char.ofNat (48 + n % 10)

/-- Zero-padded fixed-width decimal rendering: the last `w` decimal
digits of `n`, most significant first (for `n < 10 ^ w` this is the
zero-padded representation the chrono `%Y`/`%m`/... specifiers
print). -/
def padDigits : Nat → Nat → List Char
  | 0, _ => []
  | w + 1, n => padDigits w (n / 10) ++ [digitChar n]

/-- Character list of the mirror file name
`format!("response_{}.txt", timestamp.format("%Y%m%d_%H%M%S"))` of
`save_as_text_file` (`src/rag.rs` lines 90-103), for years below
10000 (chrono prints more than four digits beyond that). -/
def mirrorFileChars (t : Timestamp) : List Char :=
  "response_".data
    ++ (padDigits 4 t.year ++ padDigits 2 t.month ++ padDigits 2 t.day)
    ++ underscoreChar ::
      ((padDigits 2 t.hour ++ padDigits 2 t.minute ++ padDigits 2 t.second)
        ++ ".txt".data)

/-- The mirror file name as a string. -/
def mirrorFilename (t : Timestamp) : String :=
  String.mk (mirrorFileChars t)

/-- The `%Y-%m-%d %H:%M:%S` rendering used inside the mirror file
body. -/
def displayTimestamp (t : Timestamp) : String :=
  String.mk (padDigits 4 t.year) ++ "-" ++ String.mk (padDigits 2 t.month) ++ "-"
    ++ String.mk (padDigits 2 t.day) ++ " " ++ String.mk (padDigits 2 t.hour) ++ ":"
    ++ String.mk (padDigits 2 t.minute) ++ ":" ++ String.mk (padDigits 2 t.second)

/-- The mirror file body built by `save_as_text_file`. -/
def mirrorContent (e : ConversationEntry) : String :=
  "Timestamp: " ++ displayTimestamp e.timestamp
    ++ "\nModel: " ++ e.model_used
    ++ "\nResponse Time: " ++ toString e.response_time_ms ++ "ms\n\nPrompt:\n"
    ++ e.prompt ++ "\n\nResponse:\n" ++ e.response ++ "\n"

/-- A flat directory as an association list from file name to content,
in creation order. -/
def fsWrite (fs : List (String × String)) (name content : String) :
    List (String × String) :=
  if fs.any (fun p => p.1 == name) then
    fs.map (fun p => if p.1 == name then (p.1, content) else p)
  else
    fs ++ [(name, content)]

/-- Effect of `std::fs::write` inside `save_as_text_file` on the save
directory: create the mirror file, truncating (overwriting) any
existing file of the same name. -/
def saveMirrorFile (fs : List (String × String)) (e : ConversationEntry) :
    List (String × String) :=
  fsWrite fs (mirrorFilename e.timestamp) (mirrorContent e)

/-- Strict character order by code point. -/
def charLt (c d : Char) : Bool :=
  decide (c.toNat < d.toNat)

/-- Lexicographic strict order on character lists (the order in which
mirror file names sort in a directory listing). -/
def lexLt : List Char → List Char → Bool
  | [], [] => false
  | [], _ :: _ => true
  | _ :: _, [] => false
  | c :: cs, d :: ds => charLt c d || (c == d && lexLt cs ds)

/-- Case-sensitive prefix test on character lists. -/
def startsWithChars : List Char → List Char → Bool
  | [], _ => true
  | _ :: _, [] => false
  | p :: ps, c :: cs => p == c && startsWithChars ps cs

/-- Case-sensitive substring containment, the notion the specification
sentence "contains ... as a substring" denotes. -/
def strHasSub (pat s : String) : Bool :=
  s.data.tails.any (fun suf => startsWithChars pat.data suf)

/-- The single-quote character as a string. -/
def quoteStr : String := String.mk [quoteChar]

/-- Example entry with prompt `hello world` (the spec §8 example log). -/
def exHello : ConversationEntry :=
  ⟨1, ⟨2026, 10, 11, 9, 0, 0, 0⟩, "hello world", "resp one", "m", 10, none⟩

/-- Example entry with prompt `goodbye moon` (the spec §8 example log). -/
def exGoodbye : ConversationEntry :=
  ⟨2, ⟨2026, 10, 12, 9, 0, 0, 0⟩, "goodbye moon", "resp two", "m", 20, none⟩

/-- Entry whose text contains `hello` only in lower case. -/
def exCased : ConversationEntry :=
  ⟨1, ⟨2026, 10, 11, 9, 0, 0, 0⟩, "hello there", "resp", "m", 10, none⟩

/-- Entry whose prompt contains a single-quote character. -/
def exQuoted : ConversationEntry :=
  ⟨1, ⟨2026, 10, 11, 9, 0, 0, 0⟩, "it" ++ quoteStr ++ "s raining", "resp", "m", 10, none⟩

/-- The current calendar day used in the concrete analytics evaluations. -/
def exToday : Nat × Nat × Nat := (2026, 10, 12)

/-- Query consisting of a single vertical tab (U+000B): Unicode whitespace
that is not an ASCII space, tab or newline, so it has no
whitespace-separated words. -/
def exVtQuery : String := String.mk [Char.ofNat 11]

/-- First of two timestamps inside the same wall-clock second. -/
def exT1 : Timestamp := ⟨2026, 10, 12, 9, 30, 0, 100⟩

/-- Second of two timestamps inside the same wall-clock second. -/
def exT2 : Timestamp := ⟨2026, 10, 12, 9, 30, 0, 200⟩

/-- First of two exchanges completed within the same second. -/
def exF1 : ConversationEntry := ⟨1, exT1, "p one", "r one", "m", 10, none⟩

/-- Second of two exchanges completed within the same second. -/
def exF2 : ConversationEntry := ⟨2, exT2, "p two", "r two", "m", 20, none⟩

/-- Timestamp used in the mirror-name order witness. -/
def exS1 : Timestamp := ⟨2026, 10, 12, 9, 30, 5, 0⟩

/-- Timestamp one second after `exS1`. -/
def exS2 : Timestamp := ⟨2026, 10, 12, 9, 30, 6, 0⟩

/-! ## Helper lemmas -/

theorem findSimilar_ok (log : List ConversationEntry) (q : String) (limit : Nat)
    (h1 : (splitWords q).take 3 ≠ [])
    (h2 : ∀ w ∈ (splitWords q).take 3, w.data.contains quoteChar = false) :
    findSimilarResponses log q limit =
      Except.ok
        ((sortByTsDesc (log.filter (matchesKeywords ((splitWords q).take 3)))).take limit) := by
  have e1 : ((splitWords q).take 3).isEmpty = false :=
    Bool.eq_false_iff.mpr (fun h => h1 (List.isEmpty_iff.mp h))
  have e2 : (((splitWords q).take 3).any fun w => w.data.contains quoteChar) = false := by
    apply Bool.eq_false_iff.mpr
    intro h
    obtain ⟨w, hw, hq⟩ := List.any_eq_true.mp h
    rw [h2 w hw] at hq
    exact absurd hq (by simp)
  simp only [findSimilarResponses, e1, e2, Bool.false_eq_true, if_false]

theorem dedup_length_of_all_eq {α : Type} [DecidableEq α] (v : α) (l : List α)
    (h : ∀ x ∈ l, x = v) : l.dedup.length = if l.isEmpty then 0 else 1 := by
  induction l with
  | nil => rfl
  | cons a t ih =>
    have ha : a = v := h a (by simp)
    cases t with
    | nil => simp
    | cons b u =>
      have hb : b = v := h b (by simp)
      have hmem : a ∈ b :: u := by
        rw [ha, hb]; exact List.mem_cons_self _ _
      rw [List.dedup_cons_of_mem hmem]
      have ht := ih (fun x hx => h x (List.mem_cons_of_mem a hx))
      simpa using ht

theorem char_beq_eq_decide (c d : Char) : (c == d) = decide (c = d) := by
  by_cases h : c = d <;> simp [h]

theorem padDigits_length (w n : Nat) : (padDigits w n).length = w := by
  induction w generalizing n with
  | zero => rfl
  | succ w ih => simp [padDigits, ih]

theorem lexLt_self (xs : List Char) : lexLt xs xs = false := by
  induction xs with
  | nil => rfl
  | cons c cs ih => simp [lexLt, charLt, ih]

theorem lexLt_append (xs ys zs ws : List Char) (h : xs.length = ys.length) :
    lexLt (xs ++ zs) (ys ++ ws) =
      (lexLt xs ys || (decide (xs = ys) && lexLt zs ws)) := by
  induction xs generalizing ys with
  | nil =>
    cases ys with
    | nil => simp [lexLt]
    | cons d ds => simp at h
  | cons c cs ih =>
    cases ys with
    | nil => simp at h
    | cons d ds =>
      have h' : cs.length = ds.length := by simpa using h
      simp only [List.cons_append, lexLt, ih ds h', char_beq_eq_decide,
        List.cons.injEq, Bool.decide_and]
      by_cases he : c = d
      · subst he
        cases hcd : charLt c c <;>
          simp [ih ds h', Bool.or_assoc, Bool.and_or_distrib_left, Bool.and_assoc]
      · simp [he]

theorem digitChar_lt_aux : ∀ x y : Fin 10,
    decide ((Char.ofNat (48 + x.val)).toNat < (Char.ofNat (48 + y.val)).toNat) =
      decide (x.val < y.val) := by
  decide

theorem digitChar_inj_aux : ∀ x y : Fin 10,
    Char.ofNat (48 + x.val) = Char.ofNat (48 + y.val) ↔ x.val = y.val := by
  decide

theorem digitChar_lt (a b : Nat) :
    charLt (digitChar a) (digitChar b) = decide (a % 10 < b % 10) := by
  have ha : a % 10 < 10 := Nat.mod_lt _ (by norm_num)
  have hb : b % 10 < 10 := Nat.mod_lt _ (by norm_num)
  exact digitChar_lt_aux ⟨a % 10, ha⟩ ⟨b % 10, hb⟩

theorem digitChar_inj (a b : Nat) :
    digitChar a = digitChar b ↔ a % 10 = b % 10 := by
  have ha : a % 10 < 10 := Nat.mod_lt _ (by norm_num)
  have hb : b % 10 < 10 := Nat.mod_lt _ (by norm_num)
  exact digitChar_inj_aux ⟨a % 10, ha⟩ ⟨b % 10, hb⟩

theorem padDigits_order (w : Nat) : ∀ a b : Nat, a < 10 ^ w → b < 10 ^ w →
    (lexLt (padDigits w a) (padDigits w b) = decide (a < b)) ∧
    (padDigits w a = padDigits w b ↔ a = b) := by
  induction w with
  | zero =>
    intro a b ha hb
    rw [pow_zero] at ha hb
    have ha0 : a = 0 := Nat.lt_one_iff.mp ha
    have hb0 : b = 0 := Nat.lt_one_iff.mp hb
    subst ha0
    subst hb0
    simp [padDigits, lexLt]
  | succ w ih =>
    intro a b ha hb
    have haq : a / 10 < 10 ^ w := by
      rw [Nat.div_lt_iff_lt_mul (by norm_num), ← pow_succ]
      exact ha
    have hbq : b / 10 < 10 ^ w := by
      rw [Nat.div_lt_iff_lt_mul (by norm_num), ← pow_succ]
      exact hb
    obtain ⟨ihlt, iheq⟩ := ih (a / 10) (b / 10) haq hbq
    constructor
    · show lexLt (padDigits w (a / 10) ++ [digitChar a])
        (padDigits w (b / 10) ++ [digitChar b]) = _
      rw [lexLt_append _ _ _ _ (by rw [padDigits_length, padDigits_length])]
      have hsingle : lexLt [digitChar a] [digitChar b] =
          charLt (digitChar a) (digitChar b) := by
        simp [lexLt]
      rw [hsingle, ihlt, digitChar_lt,
        show decide (padDigits w (a / 10) = padDigits w (b / 10)) =
          decide (a / 10 = b / 10) from decide_eq_decide.mpr iheq]
      have harith : (a < b) ↔ (a / 10 < b / 10 ∨ (a / 10 = b / 10 ∧ a % 10 < b % 10)) := by
        omega
      rw [show decide (a < b) =
        decide (a / 10 < b / 10 ∨ (a / 10 = b / 10 ∧ a % 10 < b % 10)) from
          decide_eq_decide.mpr harith]
      simp [Bool.decide_or, Bool.decide_and]
    · show padDigits w (a / 10) ++ [digitChar a] =
        padDigits w (b / 10) ++ [digitChar b] ↔ a = b
      constructor
      · intro h
        obtain ⟨h1, h2⟩ :=
          List.append_inj h (by rw [padDigits_length, padDigits_length])
        have hq : a / 10 = b / 10 := iheq.mp h1
        have hm : a % 10 = b % 10 :=
          (digitChar_inj a b).mp ((List.cons.injEq _ _ _ _).mp h2).1
        omega
      · intro h
        subst h
        rfl

theorem padDigits_append (w1 w2 a b : Nat) (hb : b < 10 ^ w2) :
    padDigits w1 a ++ padDigits w2 b = padDigits (w1 + w2) (a * 10 ^ w2 + b) := by
  induction w2 generalizing b with
  | zero =>
    rw [pow_zero] at hb
    have hb0 : b = 0 := Nat.lt_one_iff.mp hb
    subst hb0
    simp [padDigits]
  | succ w2 ih =>
    have hbq : b / 10 < 10 ^ w2 := by
      rw [Nat.div_lt_iff_lt_mul (by norm_num), ← pow_succ]
      exact hb
    show padDigits w1 a ++ (padDigits w2 (b / 10) ++ [digitChar b]) = _
    rw [← List.append_assoc, ih (b / 10) hbq]
    have e1 : w1 + (w2 + 1) = (w1 + w2) + 1 := by omega
    rw [e1]
    show _ = padDigits (w1 + w2) ((a * 10 ^ (w2 + 1) + b) / 10) ++
      [digitChar (a * 10 ^ (w2 + 1) + b)]
    have hdiv : (a * 10 ^ (w2 + 1) + b) / 10 = a * 10 ^ w2 + b / 10 := by
      rw [pow_succ, ← Nat.mul_assoc]
      omega
    have hmodeq : (a * 10 ^ (w2 + 1) + b) % 10 = b % 10 := by
      rw [pow_succ, ← Nat.mul_assoc]
      omega
    have hdc : digitChar (a * 10 ^ (w2 + 1) + b) = digitChar b := by
      simp [digitChar, hmodeq]
    rw [hdiv, hdc]

theorem secKey_split (t : Timestamp) :
    secKey t = dateKey t * 1000000 + timeKey t := by
  unfold secKey dateKey timeKey
  ring

theorem mirrorFileChars_assemble (t : Timestamp) (hm : t.month < 100)
    (hd : t.day < 100) (hmi : t.minute < 100)
    (hs : t.second < 100) :
    mirrorFileChars t =
      "response_".data ++ (padDigits 8 (dateKey t) ++
        underscoreChar :: (padDigits 6 (timeKey t) ++ ".txt".data)) := by
  have h1 : padDigits 4 t.year ++ padDigits 2 t.month =
      padDigits 6 (t.year * 100 + t.month) := by
    have h := padDigits_append 4 2 t.year t.month (by simpa using hm)
    simpa using h
  have h2 : padDigits 6 (t.year * 100 + t.month) ++ padDigits 2 t.day =
      padDigits 8 (dateKey t) := by
    have h := padDigits_append 6 2 (t.year * 100 + t.month) t.day (by simpa using hd)
    simpa [dateKey] using h
  have h3 : padDigits 2 t.hour ++ padDigits 2 t.minute =
      padDigits 4 (t.hour * 100 + t.minute) := by
    have h := padDigits_append 2 2 t.hour t.minute (by simpa using hmi)
    simpa using h
  have h4 : padDigits 4 (t.hour * 100 + t.minute) ++ padDigits 2 t.second =
      padDigits 6 (timeKey t) := by
    have h := padDigits_append 4 2 (t.hour * 100 + t.minute) t.second (by simpa using hs)
    simpa [timeKey] using h
  unfold mirrorFileChars
  rw [← h2, ← h1, ← h4, ← h3]
  simp [List.append_assoc]

theorem mirror_lex (t1 t2 : Timestamp)
    (hm1 : t1.month < 100) (hd1 : t1.day < 100) (hh1 : t1.hour < 100)
    (hmi1 : t1.minute < 100) (hs1 : t1.second < 100)
    (hy1 : t1.year < 10000)
    (hm2 : t2.month < 100) (hd2 : t2.day < 100) (hh2 : t2.hour < 100)
    (hmi2 : t2.minute < 100) (hs2 : t2.second < 100)
    (hy2 : t2.year < 10000) :
    (lexLt (mirrorFileChars t1) (mirrorFileChars t2) =
      decide (secKey t1 < secKey t2)) ∧
    (mirrorFileChars t1 = mirrorFileChars t2 ↔ secKey t1 = secKey t2) := by
  have hdk1 : dateKey t1 < 10 ^ 8 := by
    unfold dateKey
    norm_num
    omega
  have hdk2 : dateKey t2 < 10 ^ 8 := by
    unfold dateKey
    norm_num
    omega
  have htk1 : timeKey t1 < 10 ^ 6 := by
    unfold timeKey
    norm_num
    omega
  have htk2 : timeKey t2 < 10 ^ 6 := by
    unfold timeKey
    norm_num
    omega
  have hp8 := padDigits_order 8 (dateKey t1) (dateKey t2) hdk1 hdk2
  have hp6 := padDigits_order 6 (timeKey t1) (timeKey t2) htk1 htk2
  have hsec : (secKey t1 < secKey t2) ↔
      (dateKey t1 < dateKey t2 ∨
        (dateKey t1 = dateKey t2 ∧ timeKey t1 < timeKey t2)) := by
    rw [secKey_split, secKey_split]
    have e1 : timeKey t1 < 1000000 := by simpa using htk1
    have e2 : timeKey t2 < 1000000 := by simpa using htk2
    omega
  rw [mirrorFileChars_assemble t1 hm1 hd1 hmi1 hs1,
    mirrorFileChars_assemble t2 hm2 hd2 hmi2 hs2]
  constructor
  · rw [lexLt_append _ _ _ _ rfl]
    rw [lexLt_self]
    rw [lexLt_append _ _ _ _ (by rw [padDigits_length, padDigits_length])]
    have hu : lexLt (underscoreChar :: (padDigits 6 (timeKey t1) ++ ".txt".data))
        (underscoreChar :: (padDigits 6 (timeKey t2) ++ ".txt".data)) =
        lexLt (padDigits 6 (timeKey t1) ++ ".txt".data)
          (padDigits 6 (timeKey t2) ++ ".txt".data) := by
      simp [lexLt, charLt]
    rw [hu]
    rw [lexLt_append _ _ _ _ (by rw [padDigits_length, padDigits_length])]
    rw [lexLt_self]
    rw [hp8.1, hp6.1,
      show decide (padDigits 8 (dateKey t1) = padDigits 8 (dateKey t2)) =
        decide (dateKey t1 = dateKey t2) from decide_eq_decide.mpr hp8.2,
      show decide (secKey t1 < secKey t2) =
        decide (dateKey t1 < dateKey t2 ∨
          (dateKey t1 = dateKey t2 ∧ timeKey t1 < timeKey t2)) from
        decide_eq_decide.mpr hsec]
    simp [Bool.decide_or, Bool.decide_and]
  · constructor
    · intro h
      have h0 : padDigits 8 (dateKey t1) ++
          underscoreChar :: (padDigits 6 (timeKey t1) ++ ".txt".data) =
          padDigits 8 (dateKey t2) ++
          underscoreChar :: (padDigits 6 (timeKey t2) ++ ".txt".data) :=
        List.append_cancel_left h
      obtain ⟨h1, h2⟩ :=
        List.append_inj h0 (by rw [padDigits_length, padDigits_length])
      have hdk : dateKey t1 = dateKey t2 := hp8.2.mp h1
      have h3 : padDigits 6 (timeKey t1) ++ ".txt".data =
          padDigits 6 (timeKey t2) ++ ".txt".data := by
        have := (List.cons.injEq _ _ _ _).mp h2
        exact this.2
      obtain ⟨h4, _⟩ :=
        List.append_inj h3 (by rw [padDigits_length, padDigits_length])
      have htk : timeKey t1 = timeKey t2 := hp6.2.mp h4
      rw [secKey_split, secKey_split, hdk, htk]
    · intro h
      have hc : dateKey t1 = dateKey t2 ∧ timeKey t1 = timeKey t2 := by
        rw [secKey_split, secKey_split] at h
        have e1 : timeKey t1 < 1000000 := by simpa using htk1
        have e2 : timeKey t2 < 1000000 := by simpa using htk2
        omega
      rw [hc.1, hc.2]

theorem insertByTsDesc_perm (e : ConversationEntry) (l : List ConversationEntry) :
    (insertByTsDesc e l).Perm (e :: l) := by
  induction l with
  | nil => exact List.Perm.refl _
  | cons x xs ih =>
    by_cases h : fullKey x.timestamp < fullKey e.timestamp
    · simp only [insertByTsDesc]
      rw [if_pos h]
    · simp only [insertByTsDesc]
      rw [if_neg h]
      exact List.Perm.trans (List.Perm.cons x ih) (List.Perm.swap e x xs)

theorem sortByTsDesc_perm (l : List ConversationEntry) : (sortByTsDesc l).Perm l := by
  induction l with
  | nil => exact List.Perm.refl _
  | cons x xs ih =>
    simp only [sortByTsDesc]
    exact List.Perm.trans (insertByTsDesc_perm x (sortByTsDesc xs)) (List.Perm.cons x ih)

theorem insertByTsDesc_pairwise (e : ConversationEntry) (l : List ConversationEntry)
    (h : l.Pairwise (fun a b => fullKey b.timestamp ≤ fullKey a.timestamp)) :
    (insertByTsDesc e l).Pairwise
      (fun a b => fullKey b.timestamp ≤ fullKey a.timestamp) := by
  induction l with
  | nil => simp [insertByTsDesc]
  | cons x xs ih =>
    obtain ⟨hx, hxs⟩ := List.pairwise_cons.mp h
    by_cases hc : fullKey x.timestamp < fullKey e.timestamp
    · simp only [insertByTsDesc]
      rw [if_pos hc]
      refine List.pairwise_cons.mpr ⟨?_, h⟩
      intro y hy
      rcases List.mem_cons.mp hy with rfl | hy'
      · exact le_of_lt hc
      · exact le_trans (hx y hy') (le_of_lt hc)
    · simp only [insertByTsDesc]
      rw [if_neg hc]
      refine List.pairwise_cons.mpr ⟨?_, ih hxs⟩
      intro y hy
      rcases List.mem_cons.mp ((insertByTsDesc_perm e xs).mem_iff.mp hy) with rfl | hy'
      · exact Nat.le_of_not_lt hc
      · exact hx y hy'

theorem sortByTsDesc_pairwise (l : List ConversationEntry) :
    (sortByTsDesc l).Pairwise (fun a b => fullKey b.timestamp ≤ fullKey a.timestamp) := by
  induction l with
  | nil => simp [sortByTsDesc]
  | cons x xs ih =>
    simp only [sortByTsDesc]
    exact insertByTsDesc_pairwise x _ ih

theorem spec_example_retrieval :
    findSimilarResponses [exHello, exGoodbye] "hello there friend" 3 =
      Except.ok [exHello] := rfl

/-! ## Claim theorems -/

/-- Claim C6: draining the pending-operations vector removes and returns all
queued items in append order: pushing `a`, `b`, `c` onto a queue and draining
yields exactly the prior content followed by `[a, b, c]`, the drain leaves the
queue empty, and an immediately following drain returns nothing.  No item is
lost or duplicated. -/
theorem drain_returns_all_in_order :
    (∀ (bus : List PendingOperation) (a b c : PendingOperation),
      drainOps (postOp (postOp (postOp bus a) b) c) = (bus ++ [a, b, c], [])) ∧
    (∀ bus : List PendingOperation, drainOps bus = (bus, [])) ∧
    (∀ bus : List PendingOperation, drainOps (drainOps bus).2 = ([], [])) := by
  refine ⟨?_, ?_, ?_⟩
  · intro bus a b c
    simp [drainOps, postOp]
  · intro bus; rfl
  · intro bus; rfl

/-- Claim C7: `create_rag_context` is the identity on the new message when the
suggestion list is empty; for two suggestions the output is the labeled Q/A
rendering of both entries, in the supplied order, placed before the new
message. -/
theorem create_rag_context_shape :
    (∀ p : String, createRagContext [] p = p) ∧
    (∀ (a b : ConversationEntry) (p : String),
      createRagContext [a, b] p =
        renderPrevious a ++ "\n" ++ renderPrevious b ++ "\n\nCurrent question: " ++ p) := by
  constructor
  · intro p; rfl
  · intro a b p; rfl

/-- Claim C3 counterexample: in the `ask_ollama` task of `src/main.rs` a
transport failure is posted as a `Response` carrying the rendered error text
followed by `LoadingComplete`; no `Error` variant is posted at all on that
path, contradicting the claimed Error-then-LoadingComplete failure
protocol. -/
theorem ask_ollama_failure_posts_cex :
    askOllamaPosts (Except.error "connection refused") =
      [PendingOperation.Response "Error making request: connection refused",
        PendingOperation.LoadingComplete] ∧
    (askOllamaPosts (Except.error "connection refused")).any isErrorOp = false :=
  ⟨rfl, rfl⟩

/-- Claim C3 amended: the `send_message` task of `src/ui.rs` posts `Response`
then `LoadingComplete` on success and `Error` then `LoadingComplete` on
failure; the `ask_ollama` task of `src/main.rs` posts `Response` (carrying
either the model reply or a rendered error message) then `LoadingComplete` in
both runs; in every case `LoadingComplete` is the last item the task posts for
the request. -/
theorem chat_send_post_protocol :
    (∀ resp, sendMessagePosts (Except.ok resp) =
      [PendingOperation.Response resp, PendingOperation.LoadingComplete]) ∧
    (∀ e, sendMessagePosts (Except.error e) =
      [PendingOperation.Error e, PendingOperation.LoadingComplete]) ∧
    (∀ r, (sendMessagePosts r).getLast? = some PendingOperation.LoadingComplete) ∧
    (∀ oc, askOllamaPosts oc =
      [PendingOperation.Response (askOllamaResultText oc),
        PendingOperation.LoadingComplete]) ∧
    (∀ oc, (askOllamaPosts oc).getLast? = some PendingOperation.LoadingComplete) := by
  refine ⟨fun _ => rfl, fun _ => rfl, ?_, fun _ => rfl, fun _ => rfl⟩
  intro r
  cases r <;> rfl

/-- Claim C10: interpolating query words verbatim into the SQL text can break
the statement: the one-word query `it's` makes `find_similar_responses` return
an error even though an entry whose prompt contains that word as a substring
is stored, so retrieval success is not guaranteed for all well-formed query
strings. -/
theorem find_similar_injection :
    findSimilarResponses [exQuoted] ("it" ++ quoteStr ++ "s") 3 =
      Except.error "SQL syntax error: unterminated string literal" ∧
    strHasSub ("it" ++ quoteStr ++ "s") exQuoted.prompt = true :=
  ⟨rfl, by decide⟩

/-- Claim C2 counterexample: on the empty query the generated SQL has an empty
`WHERE` clause and `find_similar_responses` returns an error, not `Ok([])`,
already on the empty log. -/
theorem find_similar_empty_query_cex :
    findSimilarResponses [] "" 5 = Except.error "SQL syntax error: empty WHERE clause" ∧
    findSimilarResponses [] "" 5 ≠ Except.ok [] := by
  refine ⟨rfl, ?_⟩
  intro h
  rw [show findSimilarResponses [] "" 5 =
    Except.error "SQL syntax error: empty WHERE clause" from rfl] at h
  exact Except.noConfusion h

/-- Claim C2 amended: every query with no whitespace-separated words (the
empty string, but also any string of Unicode whitespace only) makes the
generated SQL malformed, so the operation returns an error for every log
state; a query with at least one word, none of whose first three words
contains a single quote, returns `Ok([])` on the empty log. -/
theorem find_similar_empty_cases :
    (∀ (log : List ConversationEntry) (q : String) (limit : Nat),
      splitWords q = [] →
      findSimilarResponses log q limit =
        Except.error "SQL syntax error: empty WHERE clause") ∧
    (∀ (q : String) (limit : Nat),
      (splitWords q).take 3 ≠ [] →
      (∀ w ∈ (splitWords q).take 3, w.data.contains quoteChar = false) →
      findSimilarResponses [] q limit = Except.ok []) := by
  constructor
  · intro log q limit h
    simp [findSimilarResponses, h]
  · intro q limit h1 h2
    rw [findSimilar_ok [] q limit h1 h2]
    simp [sortByTsDesc]

/-- Witness for `find_similar_empty_cases`: the error clause at the
vertical-tab-only query (no words) on a one-entry log, and the empty-log
clause at the query `hello there friend` with limit 7. -/
theorem find_similar_empty_cases_witness :
    (splitWords exVtQuery = [] ∧
      findSimilarResponses [exHello] exVtQuery 5 =
        Except.error "SQL syntax error: empty WHERE clause") ∧
    ((splitWords "hello there friend").take 3 ≠ [] ∧
      ∀ w ∈ (splitWords "hello there friend").take 3,
        w.data.contains quoteChar = false) ∧
    findSimilarResponses [] "hello there friend" 7 = Except.ok [] :=
  ⟨⟨by decide, find_similar_empty_cases.1 [exHello] exVtQuery 5 (by decide)⟩,
    ⟨by decide, by decide⟩,
    find_similar_empty_cases.2 "hello there friend" 7 (by decide) (by decide)⟩

/-- Claim C4: from any debouncer state, an observed input equal to the last
seen value leaves the state unchanged and triggers nothing; a differing input
records the input, increments the counter (as a `u32`) and invokes the
retrieval refresh exactly when the new counter is a multiple of five;
consequently, from the initial state, four successive distinct input values
trigger zero refreshes and a fifth distinct value triggers exactly one. -/
theorem debounce_counter_policy :
    (∀ (st : DebounceState) (input : String), st.lastInput = some input →
      debouncedRagUpdate st input = (st, false)) ∧
    (∀ (st : DebounceState) (input : String), st.lastInput ≠ some input →
      (debouncedRagUpdate st input).1.lastInput = some input ∧
      (debouncedRagUpdate st input).1.counter = (st.counter + 1) % u32Mod ∧
      ((debouncedRagUpdate st input).2 = true ↔ (st.counter + 1) % u32Mod % 5 = 0)) ∧
    (∀ s1 s2 s3 s4 s5 : String,
      s1 ≠ s2 → s2 ≠ s3 → s3 ≠ s4 → s4 ≠ s5 →
      (debounceRun initDebounceState [s1, s2, s3, s4]).2 = 0 ∧
      (debounceRun initDebounceState [s1, s2, s3, s4, s5]).2 = 1) := by
  refine ⟨?_, ?_, ?_⟩
  · intro st input h
    unfold debouncedRagUpdate
    rw [if_pos (beq_iff_eq.mpr h)]
  · intro st input h
    have hb : (st.lastInput == some input) = false := beq_eq_false_iff_ne.mpr h
    refine ⟨?_, ?_, ?_⟩ <;> simp [debouncedRagUpdate, hb]
  · intro s1 s2 s3 s4 s5 h12 h23 h34 h45
    constructor <;>
      simp [debounceRun, debouncedRagUpdate, initDebounceState, u32Mod,
        h12, h23, h34, h45]

/-- Witness for `debounce_counter_policy` on five concrete distinct inputs. -/
theorem debounce_counter_policy_witness :
    (("a" : String) ≠ "b" ∧ ("b" : String) ≠ "c" ∧ ("c" : String) ≠ "d" ∧
      ("d" : String) ≠ "e") ∧
    (debounceRun initDebounceState ["a", "b", "c", "d"]).2 = 0 ∧
    (debounceRun initDebounceState ["a", "b", "c", "d", "e"]).2 = 1 :=
  ⟨⟨by decide, by decide, by decide, by decide⟩,
    debounce_counter_policy.2.2 "a" "b" "c" "d" "e"
      (by decide) (by decide) (by decide) (by decide)⟩

/-- Claim C8: the analytics refresh sets `total_requests` to the number of log
rows; on the empty log `avg_response_time` is exactly 0 (no error, no NaN); on
a non-empty log `avg_response_time` is the arithmetic mean of the stored
latencies, stated multiplicatively: the mean times the row count equals the
latency sum.  The `f64` arithmetic of the source is carried out exactly over
ℚ. -/
theorem analytics_count_and_average (log : List ConversationEntry)
    (today : Nat × Nat × Nat) :
    (getAnalytics log today).total_requests = log.length ∧
    (log = [] → (getAnalytics log today).avg_response_time = 0) ∧
    (log ≠ [] →
      (getAnalytics log today).avg_response_time * (log.length : ℚ) =
        ((log.map fun e => (e.response_time_ms : ℚ)).sum)) := by
  refine ⟨rfl, ?_, ?_⟩
  · rintro rfl; rfl
  · intro h
    have hne : log.isEmpty = false := by
      rw [Bool.eq_false_iff]
      intro hc
      exact h (List.isEmpty_iff.mp hc)
    have hlq : (log.length : ℚ) ≠ 0 := by
      have hl : log.length ≠ 0 := fun hc => h (List.length_eq_zero.mp hc)
      exact_mod_cast hl
    show getAvgResponseTime log * _ = _
    unfold getAvgResponseTime
    simp only [hne, Bool.false_eq_true, if_false]
    exact div_mul_cancel₀ _ hlq

/-- Witness for `analytics_count_and_average` on the two-entry example log
(latencies 10 and 20) and on the empty log. -/
theorem analytics_count_and_average_witness :
    ([exHello, exGoodbye] ≠ ([] : List ConversationEntry)) ∧
    (getAnalytics [exHello, exGoodbye] exToday).total_requests =
      [exHello, exGoodbye].length ∧
    (getAnalytics [exHello, exGoodbye] exToday).avg_response_time *
        (([exHello, exGoodbye] : List ConversationEntry).length : ℚ) =
      (([exHello, exGoodbye].map fun e => (e.response_time_ms : ℚ)).sum) ∧
    (getAnalytics [] exToday).avg_response_time = 0 :=
  ⟨by decide,
    (analytics_count_and_average [exHello, exGoodbye] exToday).1,
    (analytics_count_and_average [exHello, exGoodbye] exToday).2.2 (by decide),
    (analytics_count_and_average [] exToday).2.1 rfl⟩

/-- Claim C1 amended: the refreshed `sessions_today` statistic equals 1 when
at least one entry is dated on the current calendar day and 0 otherwise: the
query counts DISTINCT matching days, not matching entries. -/
theorem sessions_today_counts_distinct_days (log : List ConversationEntry)
    (today : Nat × Nat × Nat) :
    getSessionsToday log today =
      if log.any (fun e => entryDate e == today) then 1 else 0 := by
  unfold getSessionsToday
  have hall : ∀ x ∈ (log.filter fun e => entryDate e == today).map entryDate,
      x = today := by
    intro x hx
    obtain ⟨e, he, rfl⟩ := List.mem_map.mp hx
    exact beq_iff_eq.mp (List.mem_filter.mp he).2
  rw [dedup_length_of_all_eq today _ hall]
  by_cases h : log.any (fun e => entryDate e == today) = true
  · rw [if_pos h]
    obtain ⟨e, he, hp⟩ := List.any_eq_true.mp h
    have hf : e ∈ log.filter fun e => entryDate e == today :=
      List.mem_filter.mpr ⟨he, hp⟩
    rw [if_neg]
    intro hc
    rw [List.isEmpty_iff] at hc
    rw [List.map_eq_nil_iff] at hc
    rw [hc] at hf
    exact absurd hf (List.not_mem_nil e)
  · rw [if_neg h]
    have hnil : log.filter (fun e => entryDate e == today) = [] := by
      rw [List.filter_eq_nil_iff]
      intro e he hp
      exact h (List.any_eq_true.mpr ⟨e, he, hp⟩)
    rw [hnil]
    rfl

/-- Witness for `sessions_today_counts_distinct_days` on the two-entry example
log, whose entries are both dated on `exToday`. -/
theorem sessions_today_counts_distinct_days_witness :
    getSessionsToday [exGoodbye, exF1] exToday =
      if [exGoodbye, exF1].any (fun e => entryDate e == exToday) then 1 else 0 :=
  sessions_today_counts_distinct_days [exGoodbye, exF1] exToday

/-- Claim C1 counterexample: a log holding two entries dated on the current
day: `sessions_today` evaluates to 1 although the number of same-day entries
is 2, so the statistic is not the same-day entry count. -/
theorem sessions_today_cex :
    getSessionsToday [exGoodbye, exF1] exToday = 1 ∧
    ([exGoodbye, exF1].countP fun e => entryDate e == exToday) = 2 ∧
    (1 : Nat) ≠ 2 :=
  ⟨by decide, by decide, by decide⟩

/-- Claim C5 counterexample: the stored entry with prompt `hello there`
LIKE-matches the query word `Hello` case-insensitively, so the code returns it
although `Hello` occurs in neither the prompt nor the response as a substring;
retrieval is therefore not exact case-sensitive substring matching. -/
theorem find_similar_case_fold_cex :
    findSimilarResponses [exCased] "Hello" 5 = Except.ok [exCased] ∧
    strHasSub "Hello" exCased.prompt = false ∧
    strHasSub "Hello" exCased.response = false :=
  ⟨rfl, by decide, by decide⟩

/-- Claim C5 amended: for every query whose first (up to) three
whitespace-separated words contain no single quote, and every limit, the
retrieval returns `Ok` of at most `limit` entries; every returned entry is a
stored entry whose prompt or response `LIKE`-matches one of those words
(SQLite semantics: ASCII-case-insensitive containment, with `%` and `_`
occurring in a word acting as wildcards); when at most `limit` stored entries
match, every matching stored entry is returned; and the result is ordered
newest-first (non-increasing timestamp key). -/
theorem find_similar_characterization (log : List ConversationEntry) (q : String)
    (limit : Nat)
    (h1 : (splitWords q).take 3 ≠ [])
    (h2 : ∀ w ∈ (splitWords q).take 3, w.data.contains quoteChar = false) :
    ∃ rs, findSimilarResponses log q limit = Except.ok rs ∧
      rs.length ≤ limit ∧
      (∀ e ∈ rs, e ∈ log ∧ matchesKeywords ((splitWords q).take 3) e = true) ∧
      (log.countP (matchesKeywords ((splitWords q).take 3)) ≤ limit →
        ∀ e ∈ log, matchesKeywords ((splitWords q).take 3) e = true → e ∈ rs) ∧
      rs.Pairwise (fun a b => fullKey b.timestamp ≤ fullKey a.timestamp) := by
  refine ⟨_, findSimilar_ok log q limit h1 h2, ?_, ?_, ?_, ?_⟩
  · exact List.length_take_le _ _
  · intro e he
    have hs : e ∈ sortByTsDesc (log.filter (matchesKeywords ((splitWords q).take 3))) :=
      (List.take_sublist _ _).subset he
    exact List.mem_filter.mp ((sortByTsDesc_perm _).mem_iff.mp hs)
  · intro hc e he hm
    have hlen : (log.filter (matchesKeywords ((splitWords q).take 3))).length ≤ limit := by
      rw [← List.countP_eq_length_filter]
      exact hc
    have hslen :
        (sortByTsDesc (log.filter (matchesKeywords ((splitWords q).take 3)))).length ≤
          limit := by
      rw [(sortByTsDesc_perm _).length_eq]
      exact hlen
    rw [List.take_of_length_le hslen]
    exact (sortByTsDesc_perm _).mem_iff.mpr (List.mem_filter.mpr ⟨he, hm⟩)
  · exact List.Pairwise.sublist (List.take_sublist _ _) (sortByTsDesc_pairwise _)

/-- Witness for `find_similar_characterization` on the spec §8 example log,
query `hello there friend`, limit 3. -/
theorem find_similar_characterization_witness :
    ((splitWords "hello there friend").take 3 ≠ [] ∧
      ∀ w ∈ (splitWords "hello there friend").take 3,
        w.data.contains quoteChar = false) ∧
    (∃ rs, findSimilarResponses [exHello, exGoodbye] "hello there friend" 3 =
        Except.ok rs ∧
      rs.length ≤ 3 ∧
      (∀ e ∈ rs, e ∈ [exHello, exGoodbye] ∧
        matchesKeywords ((splitWords "hello there friend").take 3) e = true) ∧
      ([exHello, exGoodbye].countP
          (matchesKeywords ((splitWords "hello there friend").take 3)) ≤ 3 →
        ∀ e ∈ [exHello, exGoodbye],
          matchesKeywords ((splitWords "hello there friend").take 3) e = true →
            e ∈ rs) ∧
      rs.Pairwise (fun a b => fullKey b.timestamp ≤ fullKey a.timestamp)) :=
  ⟨⟨by decide, by decide⟩,
    find_similar_characterization [exHello, exGoodbye] "hello there friend" 3
      (by decide) (by decide)⟩

/-- Claim C9 counterexample: two distinct exchanges completed in the same
wall-clock second (timestamps differing only below one second) map to the SAME
mirror file name, and the second save overwrites the first: after both saves
the directory holds a single file containing the second exchange.  The
per-exchange, write-once naming and the order agreement therefore fail for
same-second exchanges. -/
theorem mirror_filename_collision_cex :
    fullKey exT1 ≠ fullKey exT2 ∧
    mirrorFilename exT1 = mirrorFilename exT2 ∧
    saveMirrorFile (saveMirrorFile [] exF1) exF2 =
      [(mirrorFilename exT1, mirrorContent exF2)] ∧
    exF1 ≠ exF2 :=
  ⟨by decide, rfl, rfl, by decide⟩

/-- Claim C9 amended: the mirror file name is a deterministic function of the
entry timestamp; for two exchanges whose timestamps differ at whole-second
granularity (fields in calendar range, year below 10000), the names are
distinct and the lexicographic order of the names agrees with the
chronological order of the timestamps.  Exchanges within the same second get
the same name and the later `fs::write` overwrites the earlier file, so the
one-file-per-exchange, write-once reading fails there (see the
counterexample). -/
theorem mirror_filename_order (t1 t2 : Timestamp)
    (hm1 : t1.month < 100) (hd1 : t1.day < 100) (hh1 : t1.hour < 100)
    (hmi1 : t1.minute < 100) (hs1 : t1.second < 100) (hy1 : t1.year < 10000)
    (hm2 : t2.month < 100) (hd2 : t2.day < 100) (hh2 : t2.hour < 100)
    (hmi2 : t2.minute < 100) (hs2 : t2.second < 100) (hy2 : t2.year < 10000)
    (hn1 : t1.nano < 1000000000) (hn2 : t2.nano < 1000000000)
    (hne : secKey t1 ≠ secKey t2) :
    (fullKey t1 < fullKey t2 ↔
      lexLt (mirrorFilename t1).data (mirrorFilename t2).data = true) ∧
    mirrorFilename t1 ≠ mirrorFilename t2 := by
  obtain ⟨hlex, heq⟩ := mirror_lex t1 t2 hm1 hd1 hh1 hmi1 hs1 hy1
    hm2 hd2 hh2 hmi2 hs2 hy2
  constructor
  · show fullKey t1 < fullKey t2 ↔
      lexLt (mirrorFileChars t1) (mirrorFileChars t2) = true
    rw [hlex, decide_eq_true_eq]
    unfold fullKey
    omega
  · intro hc
    have hchars : mirrorFileChars t1 = mirrorFileChars t2 := by
      have := congrArg String.data hc
      simpa [mirrorFilename] using this
    exact hne (heq.mp hchars)

/-- Witness for `mirror_filename_order` on two timestamps one second
apart. -/
theorem mirror_filename_order_witness :
    secKey exS1 ≠ secKey exS2 ∧
    ((fullKey exS1 < fullKey exS2 ↔
        lexLt (mirrorFilename exS1).data (mirrorFilename exS2).data = true) ∧
      mirrorFilename exS1 ≠ mirrorFilename exS2) :=
  ⟨by decide,
    mirror_filename_order exS1 exS2
      (by decide) (by decide) (by decide) (by decide) (by decide) (by decide)
      (by decide) (by decide) (by decide) (by decide) (by decide) (by decide)
      (by decide) (by decide) (by decide)⟩

end Rustai
